import Mathlib

/-!
Verification development for the nextjs-nodejs-apollo-graphql-starter
repository.  The definitions below are a shallow embedding of the
repository's runtime behaviour: the Next.js proxy (src/nextjs/src/proxy.ts),
the provider composition component, the backend GraphQL resolver pipeline
(auth middleware, tryCatchAsync, UserResolver.user) and the Prisma
read-replica routing.  Machine integers do not occur; ids are Nat, strings
are Lean strings, request paths are lists of characters.
-/

/-- JavaScript truthiness of a possibly-undefined string value, as produced by
a process.env lookup: undefined (none) and the empty string are falsy, every
other string is truthy. -/
def jsTruthy : Option String → Bool
  | none => false
  | some s => s != ""

/-- A request as seen by the Next.js proxy; only its pathname matters for the
matcher configuration. -/
structure NextRequest where
  pathname : String
  deriving DecidableEq, Repr

/-- The response produced by running the proxy on a request: either the
pass-through NextResponse.next() or whatever response the Clerk middleware
function produced (tagged abstractly). -/
inductive ProxyResponse
  | next
  | clerk (tag : Nat)
  deriving DecidableEq, Repr

/-- The exported proxy of src/nextjs/src/proxy.ts:
clerkKey is process.env.NEXT_PUBLIC_CLERK_PUBLISHABLE_KEY read at module load,
and the export is the conditional
clerkKey ternary clerkMiddleware-result otherwise the constant function
returning NextResponse.next().  The value returned by clerkMiddleware() is
passed in as the parameter mw. -/
def proxy (clerkKey : Option String) (mw : NextRequest → ProxyResponse) :
    NextRequest → ProxyResponse :=
  if jsTruthy clerkKey then mw else fun _ => ProxyResponse.next

/-- A rendered React element tree for the provider composition: leaf is the
children value passed to the component, the other nodes are the two provider
wrappers that occur in the repository. -/
inductive RenderTree (α : Type)
  | leaf (children : α)
  | apolloProvider (child : RenderTree α)
  | clerkProvider (child : RenderTree α)
  deriving DecidableEq, Repr

/-- The Providers component (Clerk plus Apollo provider composition,
src/nodejs/src/types/global.d.ts lines 877 to 889): when the publishable key
is falsy it returns ApolloProvider around children, otherwise it returns
ClerkProvider around ApolloProvider around children. -/
def Providers {α : Type} (clerkKey : Option String) (children : α) : RenderTree α :=
  if !(jsTruthy clerkKey) then RenderTree.apolloProvider (RenderTree.leaf children)
  else RenderTree.clerkProvider (RenderTree.apolloProvider (RenderTree.leaf children))

/-- Number of times the children value is rendered inside a tree. -/
def countChildrenUses {α : Type} : RenderTree α → Nat
  | RenderTree.leaf _ => 1
  | RenderTree.apolloProvider c => countChildrenUses c
  | RenderTree.clerkProvider c => countChildrenUses c

/-- Whether a ClerkProvider node occurs anywhere in a tree. -/
def usesClerkProvider {α : Type} : RenderTree α → Bool
  | RenderTree.leaf _ => false
  | RenderTree.apolloProvider c => usesClerkProvider c
  | RenderTree.clerkProvider _ => true

/-- C5: when the Clerk publishable key is configured (truthy), the exported
proxy function is exactly the function returned by clerkMiddleware(); no
token-verification logic of the repository's own wraps it. -/
theorem proxy_is_exactly_clerk_middleware (clerkKey : Option String)
    (mw : NextRequest → ProxyResponse) (h : jsTruthy clerkKey = true) :
    proxy clerkKey mw = mw := by
  simp [proxy, h]

theorem proxy_is_exactly_clerk_middleware_witness :
    jsTruthy (some "pk_test_123") = true ∧
    proxy (some "pk_test_123") (fun _ => ProxyResponse.clerk 1) =
      (fun _ => ProxyResponse.clerk 1) :=
  ⟨by decide,
   proxy_is_exactly_clerk_middleware (some "pk_test_123")
     (fun _ => ProxyResponse.clerk 1) (by decide)⟩

/-- C6: if NEXT_PUBLIC_CLERK_PUBLISHABLE_KEY is unset at module load time then
for every incoming request the exported proxy returns NextResponse.next():
every matched request passes through with no authentication check. -/
theorem proxy_passes_through_when_key_unset (mw : NextRequest → ProxyResponse)
    (req : NextRequest) :
    proxy none mw req = ProxyResponse.next := rfl

/-- C7: for every children value the Providers component renders children
exactly once, wrapped only in ApolloProvider when the key is unset, and
wrapped in ClerkProvider containing ApolloProvider when the key is set
(a set key here is a truthy one, since the component tests JS truthiness);
ClerkProvider is never rendered unless the key is present. -/
theorem providers_children_once_clerk_gated (α : Type) (clerkKey : Option String)
    (children : α) :
    countChildrenUses (Providers clerkKey children) = 1 ∧
    (clerkKey = none →
      Providers clerkKey children =
        RenderTree.apolloProvider (RenderTree.leaf children)) ∧
    (jsTruthy clerkKey = true →
      Providers clerkKey children =
        RenderTree.clerkProvider (RenderTree.apolloProvider (RenderTree.leaf children))) ∧
    (usesClerkProvider (Providers clerkKey children) = true →
      jsTruthy clerkKey = true) := by
  cases hk : clerkKey with
  | none => simp [Providers, jsTruthy, countChildrenUses, usesClerkProvider]
  | some s =>
    by_cases hs : s = ""
    · subst hs
      simp [Providers, jsTruthy, countChildrenUses, usesClerkProvider]
    · simp [Providers, jsTruthy, hs, countChildrenUses, usesClerkProvider]

theorem providers_children_once_clerk_gated_witness :
    Providers none (0 : Nat) = RenderTree.apolloProvider (RenderTree.leaf 0) ∧
    Providers (some "pk_live_1") (0 : Nat) =
      RenderTree.clerkProvider (RenderTree.apolloProvider (RenderTree.leaf 0)) ∧
    countChildrenUses (Providers none (0 : Nat)) = 1 :=
  ⟨(providers_children_once_clerk_gated Nat none 0).2.1 rfl,
   (providers_children_once_clerk_gated Nat (some "pk_live_1") 0).2.2.1 (by decide),
   (providers_children_once_clerk_gated Nat none 0).1⟩

/-- The UserRole enum of the Prisma schema (README.md database schema section):
ADMIN or USER. -/
inductive UserRole
  | ADMIN
  | USER
  deriving DecidableEq, Repr

/-- The User model of the Prisma schema (README.md database schema section);
DateTime columns are modelled as epoch numbers. -/
structure User where
  id : Nat
  auth_id : String
  email : String
  name : Option String
  phone : Option String
  image : Option String
  role : UserRole
  subscribed_to_newsletter : Bool
  newsletter_subscribed_at : Option Nat
  created_at : Nat
  updated_at : Nat
  deriving DecidableEq, Repr

/-- The environment tag carried in the session claims
(src/nodejs/src/types/global.d.ts lines 3 to 9): development, production or
local. -/
inductive EnvironmentTag
  | development
  | production
  | local
  deriving DecidableEq, Repr

/-- CustomJwtSessionClaims (src/nodejs/src/types/global.d.ts lines 3 to 9):
dbUserId, environment and role, each optional. -/
structure CustomJwtSessionClaims where
  dbUserId : Option Nat
  environment : Option EnvironmentTag
  role : Option UserRole
  deriving DecidableEq, Repr

/-- The per-request GraphQL context: the user claims attached by the auth
middleware, if any. -/
structure Context where
  user : Option CustomJwtSessionClaims
  deriving DecidableEq, Repr

/-- A thrown JavaScript error as the resolver layer sees it: either already a
GraphQLError or any other error, both carrying a message. -/
inductive JsError
  | graphQLError (message : String)
  | otherError (message : String)
  deriving DecidableEq, Repr

/-- The message of a thrown error. -/
def JsError.message : JsError → String
  | JsError.graphQLError m => m
  | JsError.otherError m => m

/-- Modelled from the spec: tryCatchAsync of src/utils/trycatch.ts, whose
implementation file is not among the retrieved sources.  Per the repository
documentation it wraps resolver logic so that every thrown error is caught and
converted to a GraphQLError carrying the original message, while successful
values pass through unchanged; no other recovery action is taken. -/
def tryCatchAsync {α : Type} (body : Except JsError α) : Except JsError α :=
  match body with
  | Except.ok a => Except.ok a
  | Except.error e => Except.error (JsError.graphQLError e.message)

/-- A database operation recorded while a resolver runs; the only operation
this repository issues is prisma.user.findUnique keyed on id. -/
inductive DbQuery
  | userFindUniqueById (key : Option Nat)
  deriving DecidableEq, Repr

/-- prisma.user.findUnique with the where clause id equal to key: the unique
User row with that id, if any.  The key is an Option because the resolver
passes ctx.user optional-chained to dbUserId. -/
def findUniqueUserById (db : List User) (key : Option Nat) : Option User :=
  match key with
  | none => none
  | some i => db.find? (fun u => u.id == i)

/-- Modelled from the spec: the user query of UserResolver, whose file
src/resolvers/user/user.resolver.ts is not among the retrieved sources; the
body is taken verbatim from the resolver pattern documented in
src/nodejs/src/types/global.d.ts lines 767 to 780.  It looks up the User whose
id is ctx.user optional-chained to dbUserId via prisma.user.findUnique, throws
GraphQLError with message "User not found" when no such row exists, all
wrapped in tryCatchAsync.  The result is returned together with the list of
database queries issued while the resolver ran. -/
def userResolverRun (db : List User) (ctx : Context) :
    Except JsError User × List DbQuery :=
  let key := ctx.user.bind (fun u => u.dbUserId)
  let body : Except JsError User :=
    match findUniqueUserById db key with
    | some u => Except.ok u
    | none => Except.error (JsError.graphQLError "User not found")
  (tryCatchAsync body, [DbQuery.userFindUniqueById key])

/-- The resolver result alone. -/
def userResolver (db : List User) (ctx : Context) : Except JsError User :=
  (userResolverRun db ctx).1

/-- The selection set of the GET_USER query (src/unnamed/part_000): the eight
fields the frontend requests from the user query. -/
structure GetUserSelection where
  id : Nat
  name : Option String
  email : String
  phone : Option String
  role : UserRole
  auth_id : String
  image : Option String
  subscribed_to_newsletter : Bool
  deriving DecidableEq, Repr

/-- Serializing a resolved User through the GET_USER selection set. -/
def selectGetUser (u : User) : GetUserSelection :=
  { id := u.id, name := u.name, email := u.email, phone := u.phone,
    role := u.role, auth_id := u.auth_id, image := u.image,
    subscribed_to_newsletter := u.subscribed_to_newsletter }

/-- An incoming HTTP request to the GraphQL server, carrying its Clerk session
token, if any. -/
structure ApiRequest where
  sessionToken : Option String
  deriving DecidableEq, Repr

/-- Modelled from the spec: authMiddleWare of
src/middlewares/auth.middleware.ts, whose implementation file is not among the
retrieved sources.  Per the spec it verifies the third-party (Clerk) auth
token, maps it to a local user record, and attaches the role and session
claims (dbUserId, environment, role) to the per-request GraphQL context.
Token verification is the external Clerk SDK, passed in as verify, which
returns the auth id of the verified session. -/
def authMiddleWare (verify : String → Option String) (db : List User)
    (env : EnvironmentTag) (req : ApiRequest) : Context :=
  match req.sessionToken with
  | none => { user := none }
  | some tok =>
    match verify tok with
    | none => { user := none }
    | some authId =>
      match db.find? (fun u => u.auth_id == authId) with
      | none => { user := none }
      | some u =>
        { user := some { dbUserId := some u.id, environment := some env,
                         role := some u.role } }

/-- The per-request pipeline of the Apollo server: the context factory runs
authMiddleWare first and the resolver (the only one is the user query) then
receives exactly that context. -/
def handleUserQuery (verify : String → Option String) (db : List User)
    (env : EnvironmentTag) (req : ApiRequest) :
    Except JsError User × List DbQuery :=
  userResolverRun db (authMiddleWare verify db env req)

/-- C1: the protected user query performs exactly one keyed database lookup,
on the User id equal to the dbUserId attached to the request context; it
returns that record (whose GET_USER selection is exactly the record's eight
requested fields) when it exists and fails with the GraphQL error message
"User not found" when it does not. -/
theorem user_query_single_keyed_lookup (db : List User) (ctx : Context)
    (uid : Nat) (h : ctx.user.bind (fun u => u.dbUserId) = some uid) :
    (userResolverRun db ctx).2 = [DbQuery.userFindUniqueById (some uid)] ∧
    (∀ u : User, db.find? (fun v => v.id == uid) = some u →
      (userResolverRun db ctx).1 = Except.ok u ∧
      selectGetUser u =
        { id := u.id, name := u.name, email := u.email, phone := u.phone,
          role := u.role, auth_id := u.auth_id, image := u.image,
          subscribed_to_newsletter := u.subscribed_to_newsletter }) ∧
    (db.find? (fun v => v.id == uid) = none →
      (userResolverRun db ctx).1 =
        Except.error (JsError.graphQLError "User not found")) := by
  refine ⟨?_, ?_, ?_⟩
  · simp [userResolverRun, h]
  · intro u hu
    refine ⟨?_, rfl⟩
    simp [userResolverRun, h, findUniqueUserById, hu, tryCatchAsync]
  · intro hn
    simp [userResolverRun, h, findUniqueUserById, hn, tryCatchAsync, JsError.message]

/-- A concrete user record used by the witnesses. -/
def sampleUser : User :=
  { id := 7, auth_id := "clerk_7", email := "ada@example.com",
    name := some "Ada", phone := none, image := none, role := UserRole.USER,
    subscribed_to_newsletter := false, newsletter_subscribed_at := none,
    created_at := 0, updated_at := 0 }

/-- A concrete request context used by the witnesses. -/
def sampleCtx : Context :=
  { user := some { dbUserId := some 7, environment := some EnvironmentTag.local,
                   role := some UserRole.USER } }

theorem user_query_single_keyed_lookup_witness :
    (userResolverRun [sampleUser] sampleCtx).2 =
      [DbQuery.userFindUniqueById (some 7)] ∧
    (userResolverRun [sampleUser] sampleCtx).1 = Except.ok sampleUser :=
  have h := user_query_single_keyed_lookup [sampleUser] sampleCtx 7 rfl
  ⟨h.1, (h.2.1 sampleUser (by decide)).1⟩

/-- C2: for every incoming request the authentication-context middleware
verifies the Clerk token, maps it to a local user record (keyed lookup on
auth_id), and attaches the session claims dbUserId, environment and role to
the per-request GraphQL context; the resolver then runs with exactly that
context. -/
theorem auth_context_attached_before_resolver (verify : String → Option String)
    (db : List User) (env : EnvironmentTag) (req : ApiRequest)
    (tok authId : String) (u : User)
    (htok : req.sessionToken = some tok)
    (hver : verify tok = some authId)
    (hdb : db.find? (fun v => v.auth_id == authId) = some u) :
    authMiddleWare verify db env req =
      { user := some { dbUserId := some u.id, environment := some env,
                       role := some u.role } } ∧
    handleUserQuery verify db env req =
      userResolverRun db
        { user := some { dbUserId := some u.id, environment := some env,
                         role := some u.role } } := by
  have hmw : authMiddleWare verify db env req =
      { user := some { dbUserId := some u.id, environment := some env,
                       role := some u.role } } := by
    simp [authMiddleWare, htok, hver, hdb]
  exact ⟨hmw, by simp [handleUserQuery, hmw]⟩

/-- A concrete Clerk verification function used by the witness: a single valid
token for the sample user. -/
def sampleVerify : String → Option String :=
  fun tok => if tok == "tok_7" then some "clerk_7" else none

theorem auth_context_attached_before_resolver_witness :
    authMiddleWare sampleVerify [sampleUser] EnvironmentTag.local
        { sessionToken := some "tok_7" } =
      { user := some { dbUserId := some 7,
                       environment := some EnvironmentTag.local,
                       role := some UserRole.USER } } ∧
    handleUserQuery sampleVerify [sampleUser] EnvironmentTag.local
        { sessionToken := some "tok_7" } =
      userResolverRun [sampleUser]
        { user := some { dbUserId := some 7,
                         environment := some EnvironmentTag.local,
                         role := some UserRole.USER } } :=
  auth_context_attached_before_resolver sampleVerify [sampleUser]
    EnvironmentTag.local { sessionToken := some "tok_7" } "tok_7" "clerk_7"
    sampleUser rfl (by decide) (by decide)

/-- C3: the failure-handling policy of the resolvers is exactly catch and
convert to a GraphQL error: tryCatchAsync passes success through unchanged and
turns every thrown error into a GraphQLError preserving the original message,
and every error the user resolver produces is of GraphQLError form; no error
escapes in any other form. -/
theorem resolver_errors_become_graphql_errors :
    (∀ (a : User), tryCatchAsync (Except.ok a) = Except.ok a) ∧
    (∀ (e : JsError),
      tryCatchAsync (Except.error e : Except JsError User) =
        Except.error (JsError.graphQLError e.message)) ∧
    (∀ (db : List User) (ctx : Context) (e : JsError),
      userResolver db ctx = Except.error e →
        ∃ m : String, e = JsError.graphQLError m) := by
  refine ⟨fun a => rfl, fun e => rfl, fun db ctx e h => ?_⟩
  unfold userResolver userResolverRun at h
  cases hf : findUniqueUserById db (ctx.user.bind fun u => u.dbUserId) with
  | none =>
    simp [hf, tryCatchAsync, JsError.message] at h
    exact ⟨"User not found", h.symm⟩
  | some u =>
    simp [hf, tryCatchAsync] at h

theorem resolver_errors_become_graphql_errors_witness :
    tryCatchAsync (Except.ok sampleUser) = Except.ok sampleUser ∧
    tryCatchAsync (Except.error (JsError.otherError "boom") : Except JsError User) =
      Except.error (JsError.graphQLError "boom") ∧
    ∃ m : String, JsError.graphQLError "User not found" = JsError.graphQLError m :=
  ⟨resolver_errors_become_graphql_errors.1 sampleUser,
   resolver_errors_become_graphql_errors.2.1 (JsError.otherError "boom"),
   resolver_errors_become_graphql_errors.2.2 [] sampleCtx
     (JsError.graphQLError "User not found") rfl⟩

/-- The operations a Prisma client can issue; the find, count, aggregate and
groupBy family are reads, the create, update, upsert, delete family and raw
execution are writes. -/
inductive PrismaOperation
  | findUnique
  | findUniqueOrThrow
  | findFirst
  | findFirstOrThrow
  | findMany
  | count
  | aggregate
  | groupBy
  | create
  | createMany
  | update
  | updateMany
  | upsert
  | deleteOne
  | deleteMany
  | executeRaw
  deriving DecidableEq, Repr

/-- Whether an operation is a read operation. -/
def PrismaOperation.isRead : PrismaOperation → Bool
  | PrismaOperation.findUnique => true
  | PrismaOperation.findUniqueOrThrow => true
  | PrismaOperation.findFirst => true
  | PrismaOperation.findFirstOrThrow => true
  | PrismaOperation.findMany => true
  | PrismaOperation.count => true
  | PrismaOperation.aggregate => true
  | PrismaOperation.groupBy => true
  | _ => false

/-- The two pre-configured connection pools of the extended Prisma client. -/
inductive ConnectionPool
  | primary
  | replica
  deriving DecidableEq, Repr

/-- Modelled from the spec: the read-write routing installed on the Prisma
client by the read-replicas extension in src/lib/prisma.ts, which is not among
the retrieved sources.  Per the repository documentation all read operations
automatically route to replicas and write operations go to the primary; the
choice depends only on the operation type. -/
def routeOperation (op : PrismaOperation) : ConnectionPool :=
  if op.isRead then ConnectionPool.replica else ConnectionPool.primary

/-- The routing trace of a whole sequence of operations issued by the
application: each operation paired with the pool it was directed to. -/
def routeAll (ops : List PrismaOperation) : List (PrismaOperation × ConnectionPool) :=
  ops.map (fun op => (op, routeOperation op))

/-- C4: for every database operation issued by the application, the routing
split picks a pool based solely on the operation type: every read goes to the
replica pool and every write to the primary pool; no operation is ever routed
to the other pool. -/
theorem reads_to_replica_writes_to_primary (ops : List PrismaOperation)
    (p : PrismaOperation × ConnectionPool) (hp : p ∈ routeAll ops) :
    (p.1.isRead = true → p.2 = ConnectionPool.replica) ∧
    (p.1.isRead = false → p.2 = ConnectionPool.primary) ∧
    p.2 = routeOperation p.1 := by
  rcases List.mem_map.mp hp with ⟨op, hop, rfl⟩
  refine ⟨fun hr => ?_, fun hw => ?_, rfl⟩
  · simp [routeOperation, hr]
  · simp [routeOperation, hw]

theorem reads_to_replica_writes_to_primary_witness :
    ((PrismaOperation.findMany, ConnectionPool.replica) ∈
      routeAll [PrismaOperation.findMany, PrismaOperation.create]) ∧
    ConnectionPool.replica = ConnectionPool.replica ∧
    ConnectionPool.replica = routeOperation PrismaOperation.findMany :=
  have hp : (PrismaOperation.findMany, ConnectionPool.replica) ∈
      routeAll [PrismaOperation.findMany, PrismaOperation.create] := by decide
  have h := reads_to_replica_writes_to_primary
    [PrismaOperation.findMany, PrismaOperation.create]
    (PrismaOperation.findMany, ConnectionPool.replica) hp
  ⟨hp, h.1 (by decide), h.2.2⟩

/-- Prefix test on character lists. -/
def startsWithL : List Char → List Char → Bool
  | [], _ => true
  | _ :: _, [] => false
  | p :: ps, c :: cs => p == c && startsWithL ps cs

/-- The extension alternation of the first matcher in the proxy config
(src/nextjs/src/proxy.ts lines 10 to 15): whether cs begins with one of the
regex alternatives html? css js(?!on) jpe?g webp png gif svg ttf woff2? ico
csv docx? xlsx? zip webmanifest.  Each optional-letter alternative is listed
in both of its forms; the js alternative carries the negative lookahead that
the next characters are not the letters on. -/
def extAlternativeAt (cs : List Char) : Bool :=
  startsWithL "htm".data cs || startsWithL "html".data cs ||
  startsWithL "css".data cs ||
  (startsWithL "js".data cs && !startsWithL "on".data (cs.drop 2)) ||
  startsWithL "jpg".data cs || startsWithL "jpeg".data cs ||
  startsWithL "webp".data cs || startsWithL "png".data cs ||
  startsWithL "gif".data cs || startsWithL "svg".data cs ||
  startsWithL "ttf".data cs ||
  startsWithL "woff".data cs || startsWithL "woff2".data cs ||
  startsWithL "ico".data cs || startsWithL "csv".data cs ||
  startsWithL "doc".data cs || startsWithL "docx".data cs ||
  startsWithL "xls".data cs || startsWithL "xlsx".data cs ||
  startsWithL "zip".data cs || startsWithL "webmanifest".data cs

/-- Whether a suffix begins with a dot immediately followed by one of the
extension alternatives. -/
def dotThenExtAt : List Char → Bool
  | c :: cs => c == '.' && extAlternativeAt cs
  | [] => false

/-- The second regex piece of the lookahead in the first matcher: a run of
non-question-mark characters, then a literal dot, then the extension
alternation, unanchored at its end.  Scanning from the current position, it
matches when some later dot is immediately followed by an extension with no
question mark strictly before that dot. -/
def dotExtScan : List Char → Bool
  | [] => false
  | c :: cs => (c == '.' && extAlternativeAt cs) || (c != '?' && dotExtScan cs)

/-- The first matcher of the proxy config: a leading slash, then the negative
lookahead that the remainder neither starts with the characters _next nor
contains a dot-extension occurrence, then dot-star takes the whole rest. -/
def matcherGeneral (path : List Char) : Bool :=
  match path with
  | c :: rest => c == '/' && !(startsWithL "_next".data rest || dotExtScan rest)
  | [] => false

/-- The second matcher of the proxy config: slash, then api or trpc, then
anything. -/
def matcherApiTrpc (path : List Char) : Bool :=
  startsWithL "/api".data path || startsWithL "/trpc".data path

/-- Next.js runs the proxy on a request path exactly when at least one of the
two configured matchers matches it. -/
def proxyRunsOn (path : String) : Bool :=
  matcherGeneral path.data || matcherApiTrpc path.data

/-- Splitting a character list into its slash-separated segments. -/
def splitSegments : List Char → List (List Char)
  | [] => [[]]
  | c :: cs =>
    if c == '/' then [] :: splitSegments cs
    else
      match splitSegments cs with
      | [] => [[c]]
      | s :: ss => (c :: s) :: ss

/-- Suffix test on character lists. -/
def endsWithL (suf l : List Char) : Bool :=
  startsWithL suf.reverse l.reverse

/-- The static-asset extensions exactly as claim C8 lists them. -/
def claimExtList : List String :=
  ["html", "css", "js", "jpeg", "jpg", "webp", "png", "gif", "svg", "ttf",
   "woff", "woff2", "ico", "csv", "doc", "docx", "xls", "xlsx", "zip",
   "webmanifest"]

/-- Claim C8 exactly as stated: the proxy runs on a path unless its first
segment starts with _next or its final segment ends in a dot followed by one
of the listed extensions, while every path beginning with /api or /trpc is
always included. -/
def claimC8Runs (path : String) : Bool :=
  let cs := path.data
  if startsWithL "/api".data cs || startsWithL "/trpc".data cs then true
  else
    match cs with
    | '/' :: rest =>
      let segs := splitSegments rest
      !(startsWithL "_next".data (segs.headD []) ||
        claimExtList.any (fun ext => endsWithL ('.' :: ext.data) (segs.getLastD [])))
    | _ => false

/-- Counterexample to C8 as stated: the path /a.js/b has no static-asset final
segment, yet the matcher excludes it, because the extension lookahead is not
anchored to the end of the path; and the path /page.htm is excluded by the
matcher although htm is not among the extensions the claim lists. -/
theorem c8_matcher_counterexample :
    (claimC8Runs "/a.js/b" = true ∧ proxyRunsOn "/a.js/b" = false) ∧
    (claimC8Runs "/page.htm" = true ∧ proxyRunsOn "/page.htm" = false) := by
  decide

/-- The scan of the unanchored lookahead piece succeeds exactly when the list
splits into a question-mark-free prefix followed by a dot-extension
occurrence. -/
theorem dotExtScan_iff (l : List Char) :
    dotExtScan l = true ↔
      ∃ pre suf, l = pre ++ suf ∧ pre.all (fun c => c != '?') = true ∧
        dotThenExtAt suf = true := by
  induction l with
  | nil =>
    constructor
    · intro h
      simp [dotExtScan] at h
    · rintro ⟨pre, suf, heq, hall, hsuf⟩
      obtain ⟨hp, hs⟩ := List.append_eq_nil.mp heq.symm
      subst hs
      simp [dotThenExtAt] at hsuf
  | cons c cs ih =>
    constructor
    · intro h
      rcases Bool.or_eq_true_iff.mp h with h1 | h2
      · exact ⟨[], c :: cs, rfl, rfl, h1⟩
      · obtain ⟨hne, hscan⟩ := Bool.and_eq_true_iff.mp h2
        obtain ⟨pre, suf, heq, hall, hsuf⟩ := ih.mp hscan
        exact ⟨c :: pre, suf, by rw [heq]; rfl,
               by simp [List.all_cons, hne, hall], hsuf⟩
    · rintro ⟨pre, suf, heq, hall, hsuf⟩
      cases pre with
      | nil =>
        simp only [List.nil_append] at heq
        rw [← heq] at hsuf
        exact Bool.or_eq_true_iff.mpr (Or.inl hsuf)
      | cons p ps =>
        rw [List.cons_append] at heq
        injection heq with hc hcs
        subst hc
        simp only [List.all_cons, Bool.and_eq_true] at hall
        have hscan : dotExtScan cs = true := ih.mpr ⟨ps, suf, hcs, hall.2, hsuf⟩
        exact Bool.or_eq_true_iff.mpr
          (Or.inr (Bool.and_eq_true_iff.mpr ⟨hall.1, hscan⟩))

/-- The amended characterization of the matcher on a character-list path. -/
def AmendedRunsL (cs : List Char) : Prop :=
  startsWithL "/api".data cs = true ∨ startsWithL "/trpc".data cs = true ∨
  ∃ rest, cs = '/' :: rest ∧ startsWithL "_next".data rest = false ∧
    ¬ ∃ pre suf, rest = pre ++ suf ∧ pre.all (fun c => c != '?') = true ∧
      dotThenExtAt suf = true

/-- The amended characterization of the matcher on a string path: the proxy
runs on the path exactly when the path begins with /api or /trpc, or it begins
with a slash, the remainder does not start with _next, and nowhere in the
remainder does a dot immediately followed by one of the matcher's extension
alternatives occur with a question-mark-free prefix before it. -/
def AmendedC8Runs (path : String) : Prop :=
  AmendedRunsL path.data

/-- List-level equivalence between the configured matchers and the amended
characterization. -/
theorem runsOnList_iff (cs : List Char) :
    (matcherGeneral cs || matcherApiTrpc cs) = true ↔ AmendedRunsL cs := by
  constructor
  · intro h
    rcases Bool.or_eq_true_iff.mp h with hg | ha
    · right; right
      cases cs with
      | nil => simp [matcherGeneral] at hg
      | cons c rest =>
        obtain ⟨hc, hneg⟩ := Bool.and_eq_true_iff.mp hg
        have hc : c = '/' := by simpa using hc
        subst hc
        have hor : (startsWithL "_next".data rest || dotExtScan rest) = false := by
          cases hx : (startsWithL "_next".data rest || dotExtScan rest) with
          | false => rfl
          | true => rw [hx] at hneg; exact absurd hneg (by decide)
        obtain ⟨h1, h2⟩ := Bool.or_eq_false_iff.mp hor
        refine ⟨rest, rfl, h1, fun hex => ?_⟩
        rw [(dotExtScan_iff rest).mpr hex] at h2
        exact absurd h2 (by decide)
    · rcases Bool.or_eq_true_iff.mp ha with h | h
      · exact Or.inl h
      · exact Or.inr (Or.inl h)
  · intro h
    rcases h with h | h | ⟨rest, rfl, h1, h2⟩
    · exact Bool.or_eq_true_iff.mpr
        (Or.inr (Bool.or_eq_true_iff.mpr (Or.inl h)))
    · exact Bool.or_eq_true_iff.mpr
        (Or.inr (Bool.or_eq_true_iff.mpr (Or.inr h)))
    · apply Bool.or_eq_true_iff.mpr
      left
      have hscan : dotExtScan rest = false := by
        cases hx : dotExtScan rest with
        | false => rfl
        | true => exact absurd ((dotExtScan_iff rest).mp hx) h2
      show ('/' == '/' && !(startsWithL "_next".data rest || dotExtScan rest)) = true
      rw [h1, hscan]
      decide

/-- C8 amended: for every request path the proxy runs on it exactly when the
amended characterization holds: the path begins with /api or /trpc, or it
begins with a slash whose remainder does not start with _next and contains no
occurrence of a dot immediately followed by one of the matcher's extension
alternatives preceded only by question-mark-free characters.  The extension
occurrence may be anywhere in the path, not only at the end of the final
segment, and htm counts among the extensions. -/
theorem proxy_matcher_amended_characterization (path : String) :
    proxyRunsOn path = true ↔ AmendedC8Runs path :=
  runsOnList_iff path.data

theorem proxy_matcher_amended_characterization_witness :
    AmendedC8Runs "/api/users" :=
  (proxy_matcher_amended_characterization "/api/users").mp (by decide)
